import Mathlib

/-
Verification of the Goodreads ETL pipeline (`src/goodreads_etl.py`).

The Python source is shallowly embedded below:
* CSV cells are `Option String` (`none` models a missing value / pandas NaN);
* pandas string methods `.str.lower()` / `.str.strip()` and Python's
  `str.startswith` are embedded as `lower` / `strip` / `startswith`;
* `pd.to_numeric(..., errors='coerce')` is embedded as `parseDecimal`,
  the plain decimal fragment of pandas' numeric parser (sign, digits,
  at most one decimal point); non-numeric text coerces to `none`;
* the SQLite tables are association lists of stored rows; the
  `INSERT OR IGNORE` insertion method of the `books` table is
  `insertIgnoreRow` / `insertBooks`, the plain append of the `ratings`
  table is `appendRatings`;
* `process_single_file` is `processSingleFile`: it folds the chunk
  stream through the per-file-type transformation, threading the
  database and emitting a connection-event trace whose final event
  models the `finally: conn.close()` of the source.  Chunk-level
  failures of the underlying I/O layer are injected as `Fault` values
  in the chunk stream;
* `run_production_etl` is `runProductionEtl`: schema initialisation
  (lines 93-99), dispatch over the file list (lines 112-113, whose
  `executor.map` results are never consumed), then indexing and
  aggregation.
-/

namespace GoodreadsEtl

/-- Python `str.lower()` (ASCII case mapping, as used on the rating labels). -/
def lower (s : String) : String := ⟨s.toList.map Char.toLower⟩

/-- Python `str.strip()`: drop leading and trailing whitespace. -/
def strip (s : String) : String :=
  ⟨((s.toList.dropWhile Char.isWhitespace).reverse.dropWhile Char.isWhitespace).reverse⟩

/-- Python `str.startswith`: `startswith s pre` is `s.startswith(pre)`. -/
def startswith (s pre : String) : Bool := pre.toList.isPrefixOf s.toList

/-- The closed rating vocabulary of `goodreads_etl.py` lines 24-27. -/
def RATING_MAP : List (String × Nat) :=
  [("it was amazing", 5), ("really liked it", 4), ("liked it", 3),
   ("it was ok", 2), ("did not like it", 1),
   ("this user marked the book as \"to-read\"", 0)]

/-- The Rating Normalizer, line 71:
`chunk['Rating'].str.lower().str.strip().map(RATING_MAP).fillna(0)`.
A missing cell (NaN) stays NaN through the string methods and the map,
and `fillna(0)` turns it into 0; an unmatched label maps to NaN and
likewise becomes 0.  The function is total: no input raises. -/
def ratingNormalize (cell : Option String) : Nat :=
  match cell with
  | none => 0
  | some s => (RATING_MAP.lookup (strip (lower s))).getD 0

/-- Numeric value of a decimal digit character. -/
def digitVal (c : Char) : Nat := c.toNat - 48

/-- Reads a (possibly empty) digit string as a natural number;
fails on any non-digit character. -/
def parseDigits (cs : List Char) : Option Nat :=
  cs.foldl
    (fun acc c => acc.bind (fun n => if c.isDigit then some (n * 10 + digitVal c) else none))
    (some 0)

/-- The decimal fragment of `pd.to_numeric(..., errors='coerce')`:
optional sign, digits with at most one decimal point, surrounding
whitespace tolerated; anything else coerces to `none` (pandas NaN).
(Scientific notation, infinities etc. are outside the data this
pipeline touches and are not modelled.) -/
def parseDecimal (s : String) : Option Rat :=
  let cs := (strip s).toList
  let (neg, ds) : Bool × List Char :=
    match cs with
    | '-' :: rest => (true, rest)
    | '+' :: rest => (false, rest)
    | _ => (false, cs)
  if ds.isEmpty then none
  else
    let ip := ds.takeWhile (fun c => c != '.')
    let rest := ds.dropWhile (fun c => c != '.')
    match rest with
    | [] => (parseDigits ip).map (fun n => mkRat (if neg then -(n : Int) else (n : Int)) 1)
    | _ :: fp =>
      if ip.isEmpty ∧ fp.isEmpty then none
      else
        match parseDigits ip, parseDigits fp with
        | some i, some f =>
          let m : Int := (i * 10 ^ fp.length + f : Nat)
          some (mkRat (if neg then -m else m) (10 ^ fp.length))
        | _, _ => none

/-- A raw CSV row, holding the columns the pipeline reads: `Id`,
`Name`, `Rating` (book files) and `Name`, `ID`, `Rating` (rating
files).  A `none` cell is a missing value. -/
structure RawRow where
  Id : Option String
  Name : Option String
  Rating : Option String
  ID : Option String
deriving DecidableEq, Repr

/-- A stored row of the `books` table, in the canonical columns
`{book_id, title, avg_rating}` (lines 62-64). -/
structure StoredBook where
  book_id : Rat
  title : String
  avg_rating : Option Rat
deriving DecidableEq, Repr

/-- A stored row of the `ratings` table, in the canonical columns
`{book_title, user_id, rating_text, rating_int}` (lines 74-76); the
surrogate autoincrement key is not modelled. -/
structure StoredRating where
  book_title : String
  user_id : String
  rating_text : Option String
  rating_int : Nat
deriving DecidableEq, Repr

/-- The book branch of the Schema Mapper, lines 58-64: coerce `Id` and
`Rating` to numeric, drop rows with null `Id` or null `Name`, rename
the survivors into the canonical columns. -/
def mapBookRow (r : RawRow) : Option StoredBook :=
  match r.Id.bind parseDecimal, r.Name with
  | some i, some n => some ⟨i, n, r.Rating.bind parseDecimal⟩
  | _, _ => none

/-- The Schema Mapper applied to one book-catalog chunk. -/
def mapBookChunk (rows : List RawRow) : List StoredBook :=
  rows.filterMap mapBookRow

/-- Rows of a chunk quarantined by the book branch of the Schema Mapper. -/
def quarantinedCount (rows : List RawRow) : Nat :=
  (rows.filter (fun r => (mapBookRow r).isNone)).length

/-- The rating branch of the Schema Mapper, lines 71-76: normalize the
rating label, drop rows with null `Name` or null `ID`, rename into the
canonical columns (the raw label is kept as `rating_text`). -/
def mapRatingRow (r : RawRow) : Option StoredRating :=
  match r.Name, r.ID with
  | some n, some u => some ⟨n, u, r.Rating, ratingNormalize r.Rating⟩
  | _, _ => none

/-- The Schema Mapper applied to one user-rating chunk. -/
def mapRatingChunk (rows : List RawRow) : List StoredRating :=
  rows.filterMap mapRatingRow

/-- Key lookup of the `books` table: `book_id` is its `PRIMARY KEY`. -/
def hasKey (tbl : List StoredBook) (k : Rat) : Bool :=
  tbl.any (fun x => decide (x.book_id = k))

/-- One row of the `insert_ignore` method (lines 30-32):
`INSERT OR IGNORE INTO books ...` — if a row with the same primary key
already exists the new row is silently dropped, otherwise it is
appended. -/
def insertIgnoreRow (tbl : List StoredBook) (r : StoredBook) : List StoredBook :=
  if hasKey tbl r.book_id then tbl else tbl ++ [r]

/-- The `executemany` of `insert_ignore` over one cleaned chunk:
rows are inserted left to right, each subject to `INSERT OR IGNORE`. -/
def insertBooks (tbl : List StoredBook) (rows : List StoredBook) : List StoredBook :=
  rows.foldl insertIgnoreRow tbl

/-- The plain `to_sql(..., if_exists='append')` of the `ratings` table
(line 77): an unconditional append with no deduplication. -/
def appendRatings (tbl : List StoredRating) (rows : List StoredRating) : List StoredRating :=
  tbl ++ rows

/-- Number of stored rows carrying a given book identifier. -/
def keyCount (tbl : List StoredBook) (k : Rat) : Nat :=
  tbl.countP (fun x => decide (x.book_id = k))

/-- The set of book identifiers present in a table (or in a row batch). -/
def keysOf (tbl : List StoredBook) : Finset Rat :=
  (tbl.map (fun x => x.book_id)).toFinset

/-- The mutable contents of the SQLite database. -/
structure DB where
  books : List StoredBook
  ratings : List StoredRating
deriving DecidableEq, Repr

/-- An error raised by the underlying I/O layer while handling one
chunk (reading it from the CSV, transforming it, or inserting it);
any such exception propagates out of the `for` loop of
`process_single_file`. -/
inductive Fault
  | readError
  | transformError
  | insertError
deriving DecidableEq, Repr

/-- An exception escaping `process_single_file`: either an injected
chunk fault, or the `UnboundLocalError` raised at line 82 when the
completion-log f-string reads `type_label` although no branch of the
chunk loop ever assigned it. -/
inductive EtlError
  | typeLabelUnbound
  | fault (f : Fault)
deriving DecidableEq, Repr

/-- Connection-lifecycle events of one `process_single_file` call. -/
inductive Event
  | openConn
  | insertBooksEv (n : Nat)
  | insertRatingsEv (n : Nat)
  | closeConn
deriving DecidableEq, Repr

/-- Result of the chunk loop (lines 55-79): the emitted insert events,
the database as committed so far (pandas commits each chunk insert),
and either the propagating fault or the processed-row count together
with whether `type_label` was assigned by some branch. -/
structure ChunkOut where
  evs : List Event
  db : DB
  res : Except Fault (Nat × Bool)
deriving Repr

/-- The `for chunk in pd.read_csv(...)` loop of `process_single_file`:
book files feed each chunk through the book branch of the Schema
Mapper and `INSERT OR IGNORE`, rating files through the rating branch
and a plain append, and files matching neither prefix fall through
both `if`s so the chunk is ignored.  A faulted chunk aborts the loop,
keeping the effects of the chunks already committed. -/
def runChunks (filename : String) (db : DB) :
    List (Except Fault (List RawRow)) → ChunkOut
  | [] => ⟨[], db, Except.ok (0, false)⟩
  | (Except.error f) :: _ => ⟨[], db, Except.error f⟩
  | (Except.ok rows) :: rest =>
    if startswith filename "book" then
      let cleaned := mapBookChunk rows
      let out := runChunks filename { db with books := insertBooks db.books cleaned } rest
      { out with
          evs := Event.insertBooksEv cleaned.length :: out.evs,
          res := out.res.map (fun p => (cleaned.length + p.1, true)) }
    else if startswith filename "user_rating" then
      let cleaned := mapRatingChunk rows
      let out := runChunks filename { db with ratings := appendRatings db.ratings cleaned } rest
      { out with
          evs := Event.insertRatingsEv cleaned.length :: out.evs,
          res := out.res.map (fun p => (cleaned.length + p.1, true)) }
    else
      runChunks filename db rest

/-- The Chunked File Processor (`process_single_file`, lines 48-85).
Returns the event trace (the `sqlite3.connect` at line 50 opens the
connection, the `finally` at lines 83-84 closes it on every exit
path), the committed database, and the outcome: the processed-row
count on success, or the escaping exception.  When no chunk assigned
`type_label`, the completion-log line raises `UnboundLocalError`
(modelled as `EtlError.typeLabelUnbound`). -/
def processSingleFile (filename : String) (chunks : List (Except Fault (List RawRow)))
    (db : DB) : List Event × DB × Except EtlError Nat :=
  let out := runChunks filename db chunks
  let res : Except EtlError Nat :=
    match out.res with
    | Except.error f => Except.error (EtlError.fault f)
    | Except.ok (n, tl) => if tl then Except.ok n else Except.error EtlError.typeLabelUnbound
  (Event.openConn :: (out.evs ++ [Event.closeConn]), out.db, res)

/-- The destination store; `none` models an absent table. -/
structure Store where
  booksTable : Option (List StoredBook)
  ratingsTable : Option (List StoredRating)
deriving DecidableEq, Repr

/-- The Store Initializer (lines 93-99):
`CREATE TABLE IF NOT EXISTS books ...` keeps an existing books table
and creates an empty one otherwise; `DROP TABLE IF EXISTS ratings`
followed by `CREATE TABLE ratings ...` unconditionally resets the
ratings table to empty. -/
def initSchema (s : Store) : Store :=
  { booksTable := some (s.booksTable.getD []),
    ratingsTable := some [] }

/-- A source file as handed to a worker: its name and its chunk stream. -/
abbrev SourceFile := String × List (Except Fault (List RawRow))

/-- Observable outcome of one full `run_production_etl` call. -/
structure RunReport where
  store : Store
  workerResults : List (Except EtlError Nat)
  surfacedFailures : List EtlError
  reachedIndexing : Bool
  booksCount : Nat
  ratingsCount : Nat
deriving Repr

/-- The orchestration (`run_production_etl`, lines 88-140): initialise
the schema, dispatch `process_single_file` over the file list (the
database effects of each worker are committed; the results of the
`executor.map` at lines 112-113 are collected here as
`workerResults` but the source never consumes them, so no failure is
surfaced anywhere — `surfacedFailures` is what the dispatcher
reports, which is nothing), then build the indexes and aggregate the
row counts.  Nothing between the dispatch and the indexing inspects
the worker outcomes, so control always reaches indexing. -/
def runProductionEtl (files : List SourceFile) (s : Store) : RunReport :=
  let s1 := initSchema s
  let db0 : DB := ⟨s1.booksTable.getD [], s1.ratingsTable.getD []⟩
  let step := fun (acc : DB × List (Except EtlError Nat)) (f : SourceFile) =>
    let out := processSingleFile f.1 f.2 acc.1
    (out.2.1, acc.2 ++ [out.2.2])
  let fin := files.foldl step (db0, [])
  { store := ⟨some fin.1.books, some fin.1.ratings⟩,
    workerResults := fin.2,
    surfacedFailures := [],
    reachedIndexing := true,
    booksCount := fin.1.books.length,
    ratingsCount := fin.1.ratings.length }

/-- Fuel-indexed helper for `chunksOf`; the fuel is always at least
the length of the list, so the fuel-exhausted branch is unreachable. -/
def chunksOfAux (c : Nat) : Nat → List RawRow → List (List RawRow)
  | _, [] => []
  | 0, _ :: _ => []
  | fuel + 1, x :: xs => (x :: xs).take c :: chunksOfAux c fuel ((x :: xs).drop c)

/-- Splitting a row stream into chunks of `c` rows, the shape produced
by `pd.read_csv(path, chunksize=c)`; the source uses `c = 100000`. -/
def chunksOf (c : Nat) (l : List RawRow) : List (List RawRow) :=
  if c = 0 then [] else chunksOfAux c l.length l

deriving instance DecidableEq for Except

/-! ### Supporting lemmas -/

theorem length_filterMap_add_length_filter_isNone {α β : Type} (f : α → Option β) :
    ∀ l : List α,
      (l.filterMap f).length + (l.filter (fun a => (f a).isNone)).length = l.length := by
  intro l
  induction l with
  | nil => rfl
  | cons a l ih =>
    cases h : f a <;>
      simp [List.filterMap_cons, List.filter_cons, h, ← ih] <;> omega

end GoodreadsEtl

namespace GoodreadsEtl

/-! ### Claim theorems -/

/-- C1: for every rating label in the fixed six-entry vocabulary, the
Rating Normalizer (after lower-casing and trimming the input) returns
the documented integer 5, 4, 3, 2, 1, 0 respectively; for every other
input — the empty string, a missing value (`none`), arbitrary unknown
text — it returns 0.  The function is total, so no input raises. -/
theorem rating_normalizer_contract (s : String) :
    ratingNormalize none = 0 ∧
    (strip (lower s) = "it was amazing" → ratingNormalize (some s) = 5) ∧
    (strip (lower s) = "really liked it" → ratingNormalize (some s) = 4) ∧
    (strip (lower s) = "liked it" → ratingNormalize (some s) = 3) ∧
    (strip (lower s) = "it was ok" → ratingNormalize (some s) = 2) ∧
    (strip (lower s) = "did not like it" → ratingNormalize (some s) = 1) ∧
    (strip (lower s) = "this user marked the book as \"to-read\"" →
      ratingNormalize (some s) = 0) ∧
    (strip (lower s) ∉ RATING_MAP.map Prod.fst → ratingNormalize (some s) = 0) := by
  refine ⟨rfl, ?_, ?_, ?_, ?_, ?_, ?_, ?_⟩ <;> intro h
  case _ => simp [ratingNormalize, RATING_MAP, List.lookup, h]
  case _ => simp [ratingNormalize, RATING_MAP, List.lookup, h]
  case _ => simp [ratingNormalize, RATING_MAP, List.lookup, h]
  case _ => simp [ratingNormalize, RATING_MAP, List.lookup, h]
  case _ => simp [ratingNormalize, RATING_MAP, List.lookup, h]
  case _ => simp [ratingNormalize, RATING_MAP, List.lookup, h]
  case _ =>
    simp only [RATING_MAP, List.map, List.mem_cons, List.not_mem_nil, or_false, not_or] at h
    obtain ⟨h1, h2, h3, h4, h5, h6⟩ := h
    have e1 : (strip (lower s) == "it was amazing") = false := beq_eq_false_iff_ne.mpr h1
    have e2 : (strip (lower s) == "really liked it") = false := beq_eq_false_iff_ne.mpr h2
    have e3 : (strip (lower s) == "liked it") = false := beq_eq_false_iff_ne.mpr h3
    have e4 : (strip (lower s) == "it was ok") = false := beq_eq_false_iff_ne.mpr h4
    have e5 : (strip (lower s) == "did not like it") = false := beq_eq_false_iff_ne.mpr h5
    have e6 : (strip (lower s) == "this user marked the book as \"to-read\"") = false :=
      beq_eq_false_iff_ne.mpr h6
    simp [ratingNormalize, RATING_MAP, List.lookup, e1, e2, e3, e4, e5, e6]

/-- Witness for C1 at concrete inputs: a case/whitespace variant of a
vocabulary label normalizes to its documented level, and unknown text
normalizes to 0. -/
theorem rating_normalizer_contract_witness :
    ratingNormalize (some " It was AMAZING ") = 5 ∧
    ratingNormalize (some "unknown text") = 0 :=
  ⟨(rating_normalizer_contract " It was AMAZING ").2.1 (by decide),
   (rating_normalizer_contract "unknown text").2.2.2.2.2.2.2 (by decide)⟩

/-- C2: for every book-catalog chunk, every row whose identifier fails
numeric coercion or whose title is missing is excluded from the Schema
Mapper's output; surviving rows plus quarantined rows equal the input
rows; and each surviving row carries the coerced identifier, the title
and the coerced average rating in the canonical columns
`{book_id, title, avg_rating}`. -/
theorem schema_mapper_book_quarantine (rows : List RawRow) :
    (∀ r ∈ rows, (r.Id.bind parseDecimal = none ∨ r.Name = none) → mapBookRow r = none) ∧
    (mapBookChunk rows).length + quarantinedCount rows = rows.length ∧
    (∀ r b, mapBookRow r = some b →
      r.Id.bind parseDecimal = some b.book_id ∧ r.Name = some b.title ∧
      b.avg_rating = r.Rating.bind parseDecimal) := by
  refine ⟨?_, ?_, ?_⟩
  · intro r _ h
    rcases h with h | h <;>
      · unfold mapBookRow
        cases hi : r.Id.bind parseDecimal <;> cases hn : r.Name <;>
          simp_all
  · exact length_filterMap_add_length_filter_isNone mapBookRow rows
  · intro r b h
    unfold mapBookRow at h
    cases hi : r.Id.bind parseDecimal with
    | none =>
      rw [hi] at h
      simp at h
    | some i =>
      cases hn : r.Name with
      | none =>
        rw [hi, hn] at h
        simp at h
      | some n =>
        rw [hi, hn] at h
        simp only [Option.some.injEq] at h
        subst h
        exact ⟨rfl, rfl, rfl⟩

/-- Witness for C2 on a concrete chunk: the non-numeric-identifier row
is quarantined, and the counts balance. -/
theorem schema_mapper_book_quarantine_witness :
    mapBookRow ⟨some "abc", some "BadId", some "2.0", none⟩ = none ∧
    (mapBookChunk [⟨some "1", some "HP", some "4.5", none⟩,
                   ⟨some "abc", some "BadId", some "2.0", none⟩]).length +
      quarantinedCount [⟨some "1", some "HP", some "4.5", none⟩,
                        ⟨some "abc", some "BadId", some "2.0", none⟩] = 2 :=
  ⟨(schema_mapper_book_quarantine [⟨some "abc", some "BadId", some "2.0", none⟩]).1
      ⟨some "abc", some "BadId", some "2.0", none⟩ (by decide) (by decide),
   (schema_mapper_book_quarantine
      [⟨some "1", some "HP", some "4.5", none⟩,
       ⟨some "abc", some "BadId", some "2.0", none⟩]).2.1⟩

theorem hasKey_cons (x : StoredBook) (tbl : List StoredBook) (k : Rat) :
    hasKey (x :: tbl) k = (decide (x.book_id = k) || hasKey tbl k) := by
  simp [hasKey]

theorem keyCount_cons (x : StoredBook) (tbl : List StoredBook) (k : Rat) :
    keyCount (x :: tbl) k = (if x.book_id = k then 1 else 0) + keyCount tbl k := by
  simp only [keyCount, List.countP_cons]
  by_cases hx : x.book_id = k <;> (simp [hx]; try omega)

theorem hasKey_eq_true_iff_keyCount_pos (tbl : List StoredBook) (k : Rat) :
    hasKey tbl k = true ↔ 0 < keyCount tbl k := by
  induction tbl with
  | nil => simp [hasKey, keyCount]
  | cons x tbl ih =>
    rw [hasKey_cons, keyCount_cons]
    by_cases hx : x.book_id = k <;> simp [hx, ih]

theorem hasKey_append (tbl tbl' : List StoredBook) (k : Rat) :
    hasKey (tbl ++ tbl') k = (hasKey tbl k || hasKey tbl' k) := by
  simp [hasKey]

theorem insertIgnoreRow_of_hasKey {tbl : List StoredBook} {r : StoredBook}
    (h : hasKey tbl r.book_id = true) : insertIgnoreRow tbl r = tbl := by
  simp [insertIgnoreRow, h]

theorem hasKey_insertIgnoreRow_mono {tbl : List StoredBook} {k : Rat} (r : StoredBook)
    (h : hasKey tbl k = true) : hasKey (insertIgnoreRow tbl r) k = true := by
  unfold insertIgnoreRow
  split
  · exact h
  · simp [hasKey_append, h]

theorem hasKey_insertIgnoreRow_self (tbl : List StoredBook) (r : StoredBook) :
    hasKey (insertIgnoreRow tbl r) r.book_id = true := by
  unfold insertIgnoreRow
  split
  case isTrue h => exact h
  case isFalse h => simp [hasKey_append, hasKey]

theorem hasKey_insertBooks_mono {tbl : List StoredBook} {k : Rat}
    (rows : List StoredBook) (h : hasKey tbl k = true) :
    hasKey (insertBooks tbl rows) k = true := by
  induction rows generalizing tbl with
  | nil => exact h
  | cons r rows ih => exact ih (hasKey_insertIgnoreRow_mono r h)

theorem hasKey_insertBooks_of_mem {rows : List StoredBook} {r : StoredBook}
    (tbl : List StoredBook) (hr : r ∈ rows) :
    hasKey (insertBooks tbl rows) r.book_id = true := by
  induction rows generalizing tbl with
  | nil => cases hr
  | cons x rows ih =>
    rcases List.mem_cons.mp hr with rfl | hr'
    · exact hasKey_insertBooks_mono rows (hasKey_insertIgnoreRow_self tbl r)
    · exact ih _ hr'

theorem insertBooks_of_all_hasKey {tbl : List StoredBook} {rows : List StoredBook}
    (h : ∀ r ∈ rows, hasKey tbl r.book_id = true) : insertBooks tbl rows = tbl := by
  induction rows with
  | nil => rfl
  | cons r rows ih =>
    have h1 : insertIgnoreRow tbl r = tbl :=
      insertIgnoreRow_of_hasKey (h r (List.mem_cons_self r rows))
    show insertBooks (insertIgnoreRow tbl r) rows = tbl
    rw [h1]
    exact ih (fun x hx => h x (List.mem_cons_of_mem r hx))

theorem keyCount_insertIgnoreRow_of_hasKey {tbl : List StoredBook} {k : Rat}
    (r : StoredBook) (h : hasKey tbl k = true) :
    keyCount (insertIgnoreRow tbl r) k = keyCount tbl k := by
  unfold insertIgnoreRow
  split
  case isTrue => rfl
  case isFalse hr =>
    have hk : ¬ r.book_id = k := by
      intro he
      rw [he] at hr
      exact hr h
    simp [keyCount, List.countP_append, hk]

theorem keyCount_insertBooks_of_hasKey {tbl : List StoredBook} {k : Rat}
    (rows : List StoredBook) (h : hasKey tbl k = true) :
    keyCount (insertBooks tbl rows) k = keyCount tbl k := by
  induction rows generalizing tbl with
  | nil => rfl
  | cons r rows ih =>
    show keyCount (insertBooks (insertIgnoreRow tbl r) rows) k = keyCount tbl k
    rw [ih (hasKey_insertIgnoreRow_mono r h), keyCount_insertIgnoreRow_of_hasKey r h]

/-- C3: for every book identifier, once a row with that identifier is
stored, a later `INSERT OR IGNORE` with the same identifier leaves the
table unchanged (silently dropped, never overwritten or duplicated);
the stored row count for that identifier stays 1 under any batch of
later inserts; and re-running the book-ingestion path over the same
row batch leaves the stored rows unchanged (idempotence). -/
theorem books_first_write_wins (tbl : List StoredBook) (r : StoredBook)
    (rows : List StoredBook) (k : Rat) :
    (hasKey tbl k = true → r.book_id = k → insertIgnoreRow tbl r = tbl) ∧
    (keyCount tbl k = 1 → keyCount (insertBooks tbl rows) k = 1) ∧
    insertBooks (insertBooks tbl rows) rows = insertBooks tbl rows := by
  refine ⟨?_, ?_, ?_⟩
  · intro h hk
    exact insertIgnoreRow_of_hasKey (hk ▸ h)
  · intro h1
    have hk : hasKey tbl k = true :=
      (hasKey_eq_true_iff_keyCount_pos tbl k).mpr (by omega)
    rw [keyCount_insertBooks_of_hasKey rows hk, h1]
  · exact insertBooks_of_all_hasKey (fun x hx => hasKey_insertBooks_of_mem tbl hx)

/-- Witness for C3: with `(1, "A")` already stored, a later insert of
`(1, "B")` is dropped, and a batch containing another row keyed 1
leaves the count of key 1 at one. -/
theorem books_first_write_wins_witness :
    insertIgnoreRow [⟨1, "A", none⟩] ⟨1, "B", none⟩ = [⟨1, "A", none⟩] ∧
    keyCount (insertBooks [⟨1, "A", none⟩] [⟨1, "C", none⟩, ⟨2, "D", none⟩]) 1 = 1 :=
  ⟨(books_first_write_wins [⟨1, "A", none⟩] ⟨1, "B", none⟩ [] 1).1 (by decide) (by decide),
   (books_first_write_wins [⟨1, "A", none⟩] ⟨1, "B", none⟩
      [⟨1, "C", none⟩, ⟨2, "D", none⟩] 1).2.1 (by decide)⟩

/-- C6: at the start of every run the books table is created only if
absent (existing books rows persist, an absent table becomes empty),
while the ratings table is unconditionally reset to empty; and within
a run rating inserts are unconditional appends with no deduplication,
so every repeated row (in particular every repeated (user, title)
pair) accumulates: the stored multiplicity of any rating row is the
sum of the multiplicities already stored and newly inserted. -/
theorem schema_lifecycle_and_rating_appends (s : Store)
    (tbl : List StoredRating) (rows : List StoredRating) (x : StoredRating) :
    (initSchema s).booksTable = some (s.booksTable.getD []) ∧
    (initSchema s).ratingsTable = some [] ∧
    appendRatings tbl rows = tbl ++ rows ∧
    (appendRatings tbl rows).count x = tbl.count x + rows.count x := by
  refine ⟨rfl, rfl, rfl, ?_⟩
  simp [appendRatings, List.count_append]

theorem join_map_filterMap_chunksOfAux {β : Type} (f : RawRow → Option β) (c : Nat)
    (hc : 0 < c) :
    ∀ (fuel : Nat) (l : List RawRow), l.length ≤ fuel →
      ((chunksOfAux c fuel l).map (List.filterMap f)).flatten = l.filterMap f := by
  intro fuel
  induction fuel with
  | zero =>
    intro l hl
    have : l = [] := List.eq_nil_of_length_eq_zero (Nat.le_zero.mp hl)
    subst this
    rfl
  | succ fuel ih =>
    intro l hl
    cases l with
    | nil => rfl
    | cons x xs =>
      rw [chunksOfAux, List.map_cons, List.flatten_cons,
        ih ((x :: xs).drop c) (by simp [List.length_drop]; simp at hl; omega),
        ← List.filterMap_append, List.take_append_drop]

theorem join_map_filterMap_chunksOf {β : Type} (f : RawRow → Option β) (c : Nat)
    (hc : 0 < c) (l : List RawRow) :
    ((chunksOf c l).map (List.filterMap f)).flatten = l.filterMap f := by
  unfold chunksOf
  rw [if_neg (Nat.pos_iff_ne_zero.mp hc)]
  exact join_map_filterMap_chunksOfAux f c hc l.length l le_rfl

/-- C4: the normalized output rows do not depend on the chunk size
used to stream the file: for any two positive chunk sizes, mapping
each chunk through the Schema Mapper and concatenating yields the same
row list, for both file types (each equals mapping the whole file at
once). -/
theorem normalization_chunk_invariant (c₁ c₂ : Nat) (h₁ : 0 < c₁) (h₂ : 0 < c₂)
    (rows : List RawRow) :
    ((chunksOf c₁ rows).map mapBookChunk).flatten = ((chunksOf c₂ rows).map mapBookChunk).flatten ∧
    ((chunksOf c₁ rows).map mapRatingChunk).flatten =
      ((chunksOf c₂ rows).map mapRatingChunk).flatten := by
  have b1 := join_map_filterMap_chunksOf mapBookRow c₁ h₁ rows
  have b2 := join_map_filterMap_chunksOf mapBookRow c₂ h₂ rows
  have r1 := join_map_filterMap_chunksOf mapRatingRow c₁ h₁ rows
  have r2 := join_map_filterMap_chunksOf mapRatingRow c₂ h₂ rows
  exact ⟨b1.trans b2.symm, r1.trans r2.symm⟩

/-- Witness for C4: chunk sizes 1 and 2 on a concrete three-row file
give the same normalized books. -/
theorem normalization_chunk_invariant_witness :
    ((chunksOf 1 [⟨some "1", some "A", some "4.5", none⟩,
                  ⟨some "x", some "B", none, none⟩,
                  ⟨some "3", some "C", none, none⟩]).map mapBookChunk).flatten =
    ((chunksOf 2 [⟨some "1", some "A", some "4.5", none⟩,
                  ⟨some "x", some "B", none, none⟩,
                  ⟨some "3", some "C", none, none⟩]).map mapBookChunk).flatten :=
  (normalization_chunk_invariant 1 2 (by decide) (by decide)
    [⟨some "1", some "A", some "4.5", none⟩,
     ⟨some "x", some "B", none, none⟩,
     ⟨some "3", some "C", none, none⟩]).1

theorem runChunks_skip (filename : String) (hb : startswith filename "book" = false)
    (hu : startswith filename "user_rating" = false) :
    ∀ (chunks : List (Except Fault (List RawRow))) (db : DB),
      (runChunks filename db chunks).db = db ∧
      ((runChunks filename db chunks).res = Except.ok (0, false) ∨
        ∃ f, (runChunks filename db chunks).res = Except.error f) := by
  intro chunks
  induction chunks with
  | nil => exact fun db => ⟨rfl, Or.inl rfl⟩
  | cons c rest ih =>
    intro db
    cases c with
    | error f => exact ⟨rfl, Or.inr ⟨f, rfl⟩⟩
    | ok rows =>
      simp only [runChunks, hb, hu, Bool.false_eq_true, if_false]
      exact ih db

/-- Counterexample to C5 as stated: a file matching neither prefix
does not complete without error — after its chunk loop the
completion-log line reads the never-assigned `type_label`, raising
`UnboundLocalError` (modelled as `EtlError.typeLabelUnbound`). -/
theorem unknown_file_error_counterexample :
    (processSingleFile "notes.csv"
      [Except.ok [⟨some "1", some "A", some "2.0", some "u1"⟩]] ⟨[], []⟩).2.2
      = Except.error EtlError.typeLabelUnbound := by
  decide

/-- C5 (amended): for every source file whose name matches neither the
`book` nor the `user_rating` prefix, processing writes zero rows to
the store and does not abort the run — but it does not complete
without error: the worker's outcome is always an error (the unbound
`type_label` at the logging line, or a propagated chunk fault), which
the dispatcher discards, so the run still reaches indexing. -/
theorem unknown_file_skipped (filename : String)
    (chunks : List (Except Fault (List RawRow))) (db : DB)
    (hb : startswith filename "book" = false)
    (hu : startswith filename "user_rating" = false) :
    (processSingleFile filename chunks db).2.1 = db ∧
    (processSingleFile filename chunks db).2.2.isOk = false ∧
    (∀ files s, (runProductionEtl files s).reachedIndexing = true) := by
  obtain ⟨hdb, hres⟩ := runChunks_skip filename hb hu chunks db
  refine ⟨?_, ?_, fun _ _ => rfl⟩
  · simpa [processSingleFile] using hdb
  · rcases hres with h | ⟨f, h⟩ <;> simp [processSingleFile, h, Except.isOk, Except.toBool]

/-- Witness for C5 (amended) at a concrete unrecognized file. -/
theorem unknown_file_skipped_witness :
    (processSingleFile "misc.csv"
      [Except.ok [⟨some "7", some "B", some "1.0", some "u2"⟩]] ⟨[], []⟩).2.1
      = (⟨[], []⟩ : DB) ∧
    (processSingleFile "misc.csv"
      [Except.ok [⟨some "7", some "B", some "1.0", some "u2"⟩]] ⟨[], []⟩).2.2.isOk
      = false :=
  ⟨(unknown_file_skipped "misc.csv" _ _ (by decide) (by decide)).1,
   (unknown_file_skipped "misc.csv" _ _ (by decide) (by decide)).2.1⟩

theorem runChunks_evs_no_close (filename : String) :
    ∀ (chunks : List (Except Fault (List RawRow))) (db : DB),
      Event.closeConn ∉ (runChunks filename db chunks).evs := by
  intro chunks
  induction chunks with
  | nil => intro db; simp [runChunks]
  | cons c rest ih =>
    intro db
    cases c with
    | error f => simp [runChunks]
    | ok rows =>
      by_cases hb : startswith filename "book" = true
      · simp only [runChunks, hb, if_true, List.mem_cons]
        rintro (h | h)
        · cases h
        · exact ih _ h
      · by_cases hu : startswith filename "user_rating" = true
        · simp only [runChunks, Bool.not_eq_true] at hb
          simp only [runChunks, hb, hu, Bool.false_eq_true, if_false, if_true, List.mem_cons]
          rintro (h | h)
          · cases h
          · exact ih _ h
        · simp only [Bool.not_eq_true] at hb hu
          simp only [runChunks, hb, hu, Bool.false_eq_true, if_false]
          exact ih db

/-- C7: for every execution of the Chunked File Processor — any file
name, any chunk stream including streams that fault during reading,
transformation or insertion — the connection event trace ends with
exactly one `closeConn`: the connection opened for the file is closed
on every exit path (the `finally` of lines 83-84). -/
theorem connection_closed_on_every_path (filename : String)
    (chunks : List (Except Fault (List RawRow))) (db : DB) :
    ∃ pre, (processSingleFile filename chunks db).1 = pre ++ [Event.closeConn] ∧
      Event.closeConn ∉ pre := by
  refine ⟨Event.openConn :: (runChunks filename db chunks).evs, rfl, ?_⟩
  intro hmem
  rcases List.mem_cons.mp hmem with h | h
  · cases h
  · exact runChunks_evs_no_close filename chunks db h

/-- C8: processing the file `book1-100k.csv` with rows
`(1, "Harry Potter", "4.5")`, `(2, "", "3.0")` (empty title reads as a
missing value), `(abc, "BadId", "2.0")` stores exactly the single book
row `(1, "Harry Potter", 4.5)` (4.5 = 9/2) and reports one processed
row. -/
theorem end_to_end_book_scenario :
    (processSingleFile "book1-100k.csv"
      [Except.ok [⟨some "1", some "Harry Potter", some "4.5", none⟩,
                  ⟨some "2", none, some "3.0", none⟩,
                  ⟨some "abc", some "BadId", some "2.0", none⟩]] ⟨[], []⟩).2.1.books
      = [⟨1, "Harry Potter", some (mkRat 9 2)⟩] ∧
    (processSingleFile "book1-100k.csv"
      [Except.ok [⟨some "1", some "Harry Potter", some "4.5", none⟩,
                  ⟨some "2", none, some "3.0", none⟩,
                  ⟨some "abc", some "BadId", some "2.0", none⟩]] ⟨[], []⟩).2.2
      = Except.ok 1 := by
  constructor <;> decide

theorem hasKey_eq_true_iff_mem_keysOf (tbl : List StoredBook) (k : Rat) :
    hasKey tbl k = true ↔ k ∈ keysOf tbl := by
  simp only [hasKey, keysOf, List.any_eq_true, decide_eq_true_eq, List.mem_toFinset,
    List.mem_map]

theorem card_insert_eq_card_erase_add_one (X : Finset Rat) (a : Rat) :
    (insert a X).card = (X.erase a).card + 1 := by
  by_cases ha : a ∈ X
  · rw [Finset.insert_eq_self.mpr ha, Finset.card_erase_of_mem ha]
    have : 0 < X.card := Finset.card_pos.mpr ⟨a, ha⟩
    omega
  · rw [Finset.card_insert_of_not_mem ha, Finset.erase_eq_of_not_mem ha]

theorem length_insertBooks (rows : List StoredBook) : ∀ tbl : List StoredBook,
    (insertBooks tbl rows).length = tbl.length + (keysOf rows \ keysOf tbl).card := by
  induction rows with
  | nil =>
    intro tbl
    simp [insertBooks, keysOf]
  | cons r rest ih =>
    intro tbl
    show (insertBooks (insertIgnoreRow tbl r) rest).length = _
    have hcons : keysOf (r :: rest) = insert r.book_id (keysOf rest) := by
      simp [keysOf]
    by_cases hr : hasKey tbl r.book_id = true
    · have hmem : r.book_id ∈ keysOf tbl := (hasKey_eq_true_iff_mem_keysOf tbl _).mp hr
      rw [insertIgnoreRow_of_hasKey hr, ih tbl, hcons,
        Finset.insert_sdiff_of_mem _ hmem]
    · have hnot : r.book_id ∉ keysOf tbl := fun hmem =>
        hr ((hasKey_eq_true_iff_mem_keysOf tbl _).mpr hmem)
      have happ : insertIgnoreRow tbl r = tbl ++ [r] := by
        simp [insertIgnoreRow, hr]
      have hkeys : keysOf (tbl ++ [r]) = insert r.book_id (keysOf tbl) := by
        simp [keysOf, List.toFinset_append, Finset.union_comm, ← Finset.insert_eq]
      rw [happ, ih (tbl ++ [r]), hkeys, hcons, List.length_append,
        Finset.sdiff_insert, Finset.insert_sdiff_of_not_mem _ hnot,
        card_insert_eq_card_erase_add_one]
      simp
      omega

/-- C9: dispatching the per-file insert streams across parallel
workers inserts the same total row counts as processing them
sequentially: any interleaving the worker pool can produce is a
permutation of the sequential insert stream, and both the
first-write-wins `books` insert and the append-only `ratings` insert
yield tables of the same length under any permutation (which row wins
a duplicate-key race, and the physical order, remain unspecified). -/
theorem parallel_dispatch_same_counts (btbl : List StoredBook) (rtbl : List StoredRating)
    (seqB parB : List StoredBook) (seqR parR : List StoredRating)
    (hB : parB.Perm seqB) (hR : parR.Perm seqR) :
    (insertBooks btbl parB).length = (insertBooks btbl seqB).length ∧
    (appendRatings rtbl parR).length = (appendRatings rtbl seqR).length := by
  constructor
  · have hkeys : keysOf parB = keysOf seqB :=
      List.toFinset_eq_of_perm _ _ (hB.map (fun x => x.book_id))
    rw [length_insertBooks parB btbl, length_insertBooks seqB btbl, hkeys]
  · simp [appendRatings, hR.length_eq]

/-- Witness for C9: two interleavings of the same two book rows and
two rating rows store the same counts. -/
theorem parallel_dispatch_same_counts_witness :
    (insertBooks [] [⟨2, "B", none⟩, ⟨1, "A", none⟩]).length
      = (insertBooks [] [⟨1, "A", none⟩, ⟨2, "B", none⟩]).length ∧
    (appendRatings [] [⟨"B", "u2", none, 0⟩, ⟨"A", "u1", none, 5⟩]).length
      = (appendRatings [] [⟨"A", "u1", none, 5⟩, ⟨"B", "u2", none, 0⟩]).length :=
  parallel_dispatch_same_counts [] [] [⟨1, "A", none⟩, ⟨2, "B", none⟩]
    [⟨2, "B", none⟩, ⟨1, "A", none⟩]
    [⟨"A", "u1", none, 5⟩, ⟨"B", "u2", none, 0⟩]
    [⟨"B", "u2", none, 0⟩, ⟨"A", "u1", none, 5⟩]
    (List.Perm.swap _ _ _) (List.Perm.swap _ _ _)

/-- C10: a worker that raises is neither fatal nor visible: whenever
some worker result of a run is an error, the dispatcher still surfaces
no failure whatsoever (the `executor.map` results of lines 112-113 are
never consumed), the run reaches indexing, and the aggregation
computes its counts from whatever rows landed in the store — exactly
as if every file had succeeded. -/
theorem worker_exceptions_silently_discarded (files : List SourceFile) (s : Store)
    (_h : ∃ r ∈ (runProductionEtl files s).workerResults, r.isOk = false) :
    (runProductionEtl files s).surfacedFailures = [] ∧
    (runProductionEtl files s).reachedIndexing = true ∧
    (runProductionEtl files s).booksCount
      = ((runProductionEtl files s).store.booksTable.getD []).length ∧
    (runProductionEtl files s).ratingsCount
      = ((runProductionEtl files s).store.ratingsTable.getD []).length :=
  ⟨rfl, rfl, rfl, rfl⟩

/-- Witness for C10: a run over a single unrecognized file, whose
worker raises the unbound-`type_label` error; the run discards it and
completes. -/
theorem worker_exceptions_silently_discarded_witness :
    (runProductionEtl [("notes.csv", [Except.ok [⟨some "1", some "x", none, none⟩]])]
      ⟨none, none⟩).surfacedFailures = [] ∧
    (runProductionEtl [("notes.csv", [Except.ok [⟨some "1", some "x", none, none⟩]])]
      ⟨none, none⟩).reachedIndexing = true :=
  ⟨(worker_exceptions_silently_discarded
      [("notes.csv", [Except.ok [⟨some "1", some "x", none, none⟩]])] ⟨none, none⟩
      ⟨Except.error EtlError.typeLabelUnbound, by decide, by decide⟩).1,
   (worker_exceptions_silently_discarded
      [("notes.csv", [Except.ok [⟨some "1", some "x", none, none⟩]])] ⟨none, none⟩
      ⟨Except.error EtlError.typeLabelUnbound, by decide, by decide⟩).2.1⟩

end GoodreadsEtl
